import Mathlib

/-!
Verification of the brainrotter video-generation pipeline (src/main.py,
src/prompt.py) against its specification, via a shallow embedding:
Python floats are modelled as `ℚ`, exceptions as an `Except` with a typed
error value, the process-wide random generator as an explicit parameter,
and the orchestrator's file-system effects as an explicit event trace.
-/

namespace Brainrotter

/-- Errors raised by the Python code.  `valueError` and
`fileNotFoundError` model Python's built-in `ValueError` and
`FileNotFoundError` with their message; `ffmpegError` models the generic
`ffmpeg.Error` the probing engine itself may raise; `externalFailure`
models any exception escaping an external engine call (gTTS, whisper,
moviepy). -/
inductive PyErr where
  | valueError (msg : String)
  | fileNotFoundError (msg : String)
  | ffmpegError (msg : String)
  | externalFailure (stage : String)
deriving DecidableEq, Repr

/-- Model of Python's `s.endswith(suffix)`. -/
def pyEndsWith (s suffix : String) : Bool :=
  suffix.data.isSuffixOf s.data

/-- The file-name test used by `getRandomVideo` (src/main.py line 77):
`f.endswith(('.mp4', '.avi', '.mov'))` — true when the name ends with
any of the three extensions. -/
def isVideoFile (f : String) : Bool :=
  pyEndsWith f ".mp4" || pyEndsWith f ".avi" || pyEndsWith f ".mov"

/-- Model of `getRandomVideo(folder)` (src/main.py lines 73-81).
`folder` is the directory listing (`os.listdir`), `r` models the draw of
the process-wide random generator: `random.choice(videoFiles)` picks
`videoFiles[r % len(videoFiles)]`.  The source then joins the chosen name
to the folder path with `os.path.join`; we return the chosen entry. -/
def getRandomVideo (folder : List String) (r : ℕ) : Except PyErr String :=
  let videoFiles := folder.filter isVideoFile
  if h : videoFiles = [] then
    .error (.fileNotFoundError "No video files found in the videoDatabase folder.")
  else
    .ok (videoFiles.get ⟨r % videoFiles.length, Nat.mod_lt r (List.length_pos.mpr h)⟩)

/-- Model of the clip-window start-time selection inside `generateClip`
(src/main.py lines 159-163).  `u` models the draw of `random.random()`,
so that `random.uniform(0, hi) = 0 + (hi - 0) * u` with `u ∈ [0, 1]`
(Python documents that the right end point may or may not be attainable;
we allow it). -/
def generateClipStartTime (videoDuration audioDuration u : ℚ) : Except PyErr ℚ :=
  if videoDuration < audioDuration then
    .error (.valueError "La vidéo de base doit être au moins aussi longue que l'audio.")
  else
    .ok ((videoDuration - audioDuration) * u)

/-! ### Subtitle generation (src/main.py lines 83-131) -/

/-- Whitespace as recognised by Python's `str.split()` / `str.strip()`
(ASCII part: space, tab, newline, carriage return, vertical tab, form
feed). -/
def pyIsSpace (c : Char) : Bool :=
  c = ' ' || c = '\t' || c = '\n' || c = '\r' || c = '\x0b' || c = '\x0c'

/-- Accumulator-based worker for `pySplit`. -/
def pySplitAux : List Char → List Char → List String
  | [], acc => if acc.isEmpty then [] else [String.mk acc.reverse]
  | c :: cs, acc =>
    if pyIsSpace c then
      if acc.isEmpty then pySplitAux cs [] else String.mk acc.reverse :: pySplitAux cs []
    else
      pySplitAux cs (c :: acc)

/-- Model of Python's `str.split()` with no separator: split on runs of
whitespace, discarding empty pieces (src/main.py line 93). -/
def pySplit (s : String) : List String :=
  pySplitAux s.data []

/-- Worker for `pyRange` with an explicit fuel bounding the number of
iterations (Python's `range` with a positive step always terminates; the
fuel only makes the recursion structural). -/
def pyRangeAux : ℕ → ℕ → ℕ → ℕ → List ℕ
  | 0, _, _, _ => []
  | fuel + 1, i, n, k => if i < n && 0 < k then i :: pyRangeAux fuel (i + k) n k else []

/-- Model of Python's `range(i, n, k)` for a positive step `k`
(src/main.py line 98 uses `range(0, len(words), maxWordsPerSegment)`). -/
def pyRange (i n k : ℕ) : List ℕ :=
  pyRangeAux n i n k

/-- One transcription segment as returned by the whisper model: a text
with a start and an end time (the source field `end` is a Lean keyword,
so it is named `endTime` here, matching the local variable of
src/main.py line 95). -/
structure Segment where
  text : String
  start : ℚ
  endTime : ℚ
deriving DecidableEq, Repr

/-- The cues produced from a single transcription segment: the body of
the `for segment in segments` loop of `generateSubtitles` (src/main.py
lines 92-102).  Each cue is the tuple `(subStart, subEnd, subText)`
appended to `newSegments`. -/
def splitSegment (maxWordsPerSegment : ℕ) (segment : Segment) : List (ℚ × ℚ × String) :=
  let words := pySplit segment.text
  let startTime := segment.start
  let endTime := segment.endTime
  let durationPerWord : ℚ :=
    if words.isEmpty then 0 else (endTime - startTime) / words.length
  (pyRange 0 words.length maxWordsPerSegment).map fun (i : ℕ) =>
    (startTime + (i : ℚ) * durationPerWord,
     min (startTime + ((i : ℚ) + (maxWordsPerSegment : ℚ)) * durationPerWord) endTime,
     " ".intercalate ((words.drop i).take maxWordsPerSegment))

/-- Model of the re-chunking loop of `generateSubtitles` (src/main.py
lines 91-108): the transcription engine's output `segments` is re-chunked
segment by segment and the cue lists are concatenated in order. -/
def generateSubtitles (maxWordsPerSegment : ℕ) (segments : List Segment) :
    List (ℚ × ℚ × String) :=
  segments.flatMap (splitSegment maxWordsPerSegment)

/-- Python `a % m` on floats for a positive modulus `m`:
`a - m * ⌊a / m⌋`, the representative in `[0, m)`. -/
def pyMod (a m : ℚ) : ℚ :=
  a - m * ⌊a / m⌋

/-- Python `int(q)`: truncation toward zero. -/
def pyInt (q : ℚ) : ℤ :=
  if 0 ≤ q then ⌊q⌋ else ⌈q⌉

/-- Python's format spec `{n:0w}` for a non-negative integer: the decimal
digits of `n`, left-padded with zeros to at least `w` characters. -/
def pad (w : ℕ) (n : ℤ) : String :=
  let s := toString n
  if s.length < w then String.mk (List.replicate (w - s.length) '0') ++ s else s

/-- Model of `formatTime(seconds)` (src/main.py lines 110-118): convert
seconds into the SRT timestamp `HH:MM:SS,mmm`. -/
def formatTime (seconds : ℚ) : String :=
  let millisec := pyInt (pyMod seconds 1 * 1000)
  let hours := pyInt ((⌊seconds / 3600⌋ : ℤ) : ℚ)
  let minutes := pyInt ((⌊pyMod seconds 3600 / 60⌋ : ℤ) : ℚ)
  let sec := pyInt (pyMod seconds 60)
  pad 2 hours ++ ":" ++ pad 2 minutes ++ ":" ++ pad 2 sec ++ "," ++ pad 3 millisec

/-- Decidable check that a string is exactly `w` decimal digits (used to
state the zero-padded-field property of the timestamp format). -/
def isDigitsOfLen (w : ℕ) (s : String) : Bool :=
  s.length == w && s.data.all Char.isDigit

/-- Decidable check for the SRT timestamp pattern
`\d\d:\d\d:\d\d,\d\d\d`. -/
def isSRTTimestamp (s : String) : Bool :=
  match s.data with
  | [a, b, c, d, e, f, g, h, i, j, l, m] =>
    a.isDigit && b.isDigit && c == ':' && d.isDigit && e.isDigit && f == ':' &&
    g.isDigit && h.isDigit && i == ',' && j.isDigit && l.isDigit && m.isDigit
  | _ => false

/-- Model of `generateSubtitleFile(fileName, segments)` (src/main.py
lines 120-131): the text written to the SRT file, one block per cue,
with a 1-based index from `enumerate`. -/
def generateSubtitleFile (segments : List (ℚ × ℚ × String)) : String :=
  segments.enum.foldl
    (fun text p =>
      text ++ toString (p.1 + 1) ++ "\n" ++ formatTime p.2.1 ++ " --> " ++
        formatTime p.2.2.1 ++ "\n" ++ p.2.2.2 ++ "\n\n")
    ""

/-- The indices attached to the cues by `generateSubtitleFile`
(src/main.py line 128: `index + 1` with `index` from `enumerate`). -/
def srtIndices (segments : List (ℚ × ℚ × String)) : List ℕ :=
  segments.enum.map fun p => p.1 + 1

/-! ### Duration probing (src/main.py lines 133-157) -/

/-- One stream as reported by `ffmpeg.probe`: its `codec_type` and
declared duration (already converted to a number; the source applies
`float(...)`). -/
structure FFStream where
  codec_type : String
  duration : ℚ
deriving DecidableEq, Repr

/-- Model of `getAudioDuration(audioFile)` (src/main.py lines 133-141),
applied to the stream list of a successful `ffmpeg.probe`:
`next((s for s in streams if s["codec_type"] == "audio"), None)` is
`List.find?`, and the `None` case raises a `ValueError`. -/
def getAudioDuration (streams : List FFStream) : Except PyErr ℚ :=
  match streams.find? (fun s => s.codec_type == "audio") with
  | some s => .ok s.duration
  | none => .error (.valueError "Aucun flux audio trouvé dans le fichier audio.")

/-- Model of the video-duration probe inside `generateClip` (src/main.py
lines 153-157): same shape as `getAudioDuration` but for the first
`video` stream, with its own `ValueError` message. -/
def getVideoDuration (streams : List FFStream) : Except PyErr ℚ :=
  match streams.find? (fun s => s.codec_type == "video") with
  | some s => .ok s.duration
  | none => .error (.valueError "Aucun flux vidéo trouvé dans la vidéo de base.")

/-! ### The orchestrator `generateVideo` (src/main.py lines 199-231)

The pipeline is a straight-line sequence of calls with no `try`/`except`
and no `finally`; we model it as a function from an environment (does
each external engine call succeed, what does the video folder hold, what
does the random generator draw) to the trace of external operations
performed, the set of temporary files existing when control leaves the
function, and the error that escapes, if any. -/

/-- External operations the pipeline may perform: the gTTS synthesis
call (`generateAudio`), the whisper transcription (`generateSubtitles`),
the ffmpeg encode run (`generateClip`), the moviepy mux
(`addAudio`), and the deletion of a temporary file (`os.remove`). -/
inductive Ev where
  | synthesize
  | transcribe
  | encode
  | mux
  | remove (file : String)
deriving DecidableEq, Repr

/-- TEMP_AUDIO_FILE of src/main.py line 56 (basename). -/
def TEMP_AUDIO_FILE : String := "audio.mp3"

/-- TEMP_SRT_FILE of src/main.py line 58 (basename). -/
def TEMP_SRT_FILE : String := "sub.srt"

/-- TEMP_VIDEO_FILE of src/main.py line 59 (basename). -/
def TEMP_VIDEO_FILE : String := "temp.mp4"

/-- Environment of one `generateVideo` run: whether each external engine
call succeeds, the listing of the source-video folder, and the random
draw used by `getRandomVideo`.  `clipOk` covers the probes and the
encode inside `generateClip` (modelled as failing before the encode run,
at the probe/duration checks); `muxOk` covers `addAudio`. -/
structure Env where
  synthOk : Bool
  transcribeOk : Bool
  folder : List String
  r : ℕ
  clipOk : Bool
  muxOk : Bool

/-- Result of one `generateVideo` run: the external operations performed
in order, the temporary files still existing when control leaves
`generateVideo`, and the escaping error (`none` on success). -/
structure RunResult where
  events : List Ev
  tempFiles : List String
  err : Option PyErr
deriving DecidableEq, Repr

/-- Model of `generateVideo(text, language)` (src/main.py lines
199-231).  The body is a straight-line sequence — audio synthesis,
transcription + SRT write, random video selection, clip encode, mux,
then three `os.remove` calls — with no exception handler, so the first
failing stage makes the function raise with every temporary file created
so far left in place. -/
def generateVideo (env : Env) : RunResult :=
  -- 1. generateAudio(TEMP_AUDIO_FILE, text, language) — gTTS call
  if !env.synthOk then
    ⟨[.synthesize], [], some (.externalFailure "synthesis")⟩
  else
    -- TEMP_AUDIO_FILE now exists
    -- 2. generateSubtitles + generateSubtitleFile — whisper call, SRT write
    if !env.transcribeOk then
      ⟨[.synthesize, .transcribe], [TEMP_AUDIO_FILE], some (.externalFailure "transcription")⟩
    else
      -- TEMP_SRT_FILE now exists
      -- 3. getRandomVideo(VIDEO_DATABASE)
      match getRandomVideo env.folder env.r with
      | .error e =>
        ⟨[.synthesize, .transcribe], [TEMP_AUDIO_FILE, TEMP_SRT_FILE], some e⟩
      | .ok _videoFile =>
        -- 4. generateClip — probes, then the ffmpeg encode run
        if !env.clipOk then
          ⟨[.synthesize, .transcribe], [TEMP_AUDIO_FILE, TEMP_SRT_FILE],
            some (.externalFailure "clip")⟩
        else
          -- TEMP_VIDEO_FILE now exists
          -- 5. addAudio — moviepy mux producing FINAL_VIDEO_FILE
          if !env.muxOk then
            ⟨[.synthesize, .transcribe, .encode],
              [TEMP_AUDIO_FILE, TEMP_SRT_FILE, TEMP_VIDEO_FILE],
              some (.externalFailure "mux")⟩
          else
            -- 6. os.remove × 3
            ⟨[.synthesize, .transcribe, .encode, .mux,
              .remove TEMP_AUDIO_FILE, .remove TEMP_SRT_FILE, .remove TEMP_VIDEO_FILE],
              [], none⟩

/-! ### Prompt assembly (src/prompt.py lines 27-41) -/

/-- The literal placeholder of src/prompt.py line 28 (the raw string
spells left brace, left brace, the word prompt, right brace, right
brace). -/
def placeholder : List Char := "\x7b\x7bprompt\x7d\x7d".data

/-- Model of Python's `str.strip()`: drop leading and trailing
whitespace. -/
def pyStrip (s : String) : String :=
  String.mk (((s.data.dropWhile pyIsSpace).reverse.dropWhile pyIsSpace).reverse)

/-- Worker for Python's `str.replace(old, new)`: scan left to right; at
each position, if `pat` is a prefix of the remaining input, emit `rep`
and continue after the matched occurrence, else keep the character.  The
fuel (one unit per consumed character suffices) only makes the recursion
structural. -/
def pyReplaceAux (pat rep : List Char) : ℕ → List Char → List Char
  | 0, s => s
  | _ + 1, [] => []
  | fuel + 1, c :: cs =>
    if pat.isPrefixOf (c :: cs) then
      rep ++ pyReplaceAux pat rep fuel ((c :: cs).drop pat.length)
    else
      c :: pyReplaceAux pat rep fuel cs

/-- Model of Python's `str.replace(old, new)` for a non-empty `old`:
every non-overlapping occurrence, scanning left to right, is replaced. -/
def pyReplace (s pat rep : String) : String :=
  String.mk (pyReplaceAux pat.data rep.data s.data.length s.data)

/-- Does `pat` occur as a contiguous sublist of `s`?  (Used to state
what `pyReplace` does; for the non-empty `placeholder` this is Python's
`pat in s`.) -/
def containsSub (pat : List Char) : List Char → Bool
  | [] => pat.isEmpty
  | c :: cs => pat.isPrefixOf (c :: cs) || containsSub pat cs

/-- Model of `generateGeminiPrompt(userPrompt)` (src/prompt.py lines
27-28), with the loaded template `PROMPT` passed explicitly:
`PROMPT.replace("…placeholder…", userPrompt.strip())`. -/
def generateGeminiPrompt (PROMPT userPrompt : String) : String :=
  pyReplace PROMPT (String.mk placeholder) (pyStrip userPrompt)

/-! ### Theorems -/

/-- C3: for every `sourceDuration ≥ targetDuration` and every value the
random generator may draw, the clip-window selection returns a start in
`[0, sourceDuration - targetDuration]` (hence `start + targetDuration ≤
sourceDuration`); when `sourceDuration < targetDuration` it raises
instead of returning; in the degenerate case `10 = 10` it always returns
start `0`. -/
theorem generateClipStartTime_spec (videoDuration audioDuration u : ℚ)
    (hu0 : 0 ≤ u) (hu1 : u ≤ 1) :
    (audioDuration ≤ videoDuration →
      generateClipStartTime videoDuration audioDuration u =
        .ok ((videoDuration - audioDuration) * u)
      ∧ 0 ≤ (videoDuration - audioDuration) * u
      ∧ (videoDuration - audioDuration) * u ≤ videoDuration - audioDuration
      ∧ (videoDuration - audioDuration) * u + audioDuration ≤ videoDuration)
    ∧ (videoDuration < audioDuration →
        generateClipStartTime videoDuration audioDuration u =
          .error (.valueError "La vidéo de base doit être au moins aussi longue que l'audio."))
    ∧ generateClipStartTime 10 10 u = .ok 0 := by
  refine ⟨fun h => ?_, fun h => ?_, ?_⟩
  · have hd : 0 ≤ videoDuration - audioDuration := sub_nonneg.mpr h
    refine ⟨by simp [generateClipStartTime, not_lt.mpr h], mul_nonneg hd hu0, ?_, ?_⟩
    · exact mul_le_of_le_one_right hd hu1
    · have := mul_le_of_le_one_right hd hu1
      linarith
  · simp [generateClipStartTime, h]
  · simp [generateClipStartTime]

/-- Witness for C3 at concrete inputs. -/
theorem generateClipStartTime_spec_witness :
    (0 : ℚ) ≤ 1/2 ∧ (1 : ℚ)/2 ≤ 1 ∧ generateClipStartTime 10 10 (1/2) = .ok 0 :=
  ⟨by norm_num, by norm_num,
    (generateClipStartTime_spec 10 10 (1/2) (by norm_num) (by norm_num)).2.2⟩

/-- C5: the indices attached to the final cue sequence by the SRT
writer are exactly `1, 2, 3, …` in output order — strictly increasing,
starting at 1, with no gaps — for every input segment list and chunk
size. -/
theorem srtIndices_eq_range (k : ℕ) (segments : List Segment) :
    srtIndices (generateSubtitles k segments) =
      (List.range (generateSubtitles k segments).length).map (· + 1) := by
  unfold srtIndices
  rw [show (fun p : ℕ × (ℚ × ℚ × String) => p.1 + 1) = (fun n => n + 1) ∘ Prod.fst from rfl,
    ← List.map_map, List.enum_map_fst]

/-- C7: when the probe's stream list has no stream of the expected
kind, both duration probes fail with a `valueError` — never the generic
`ffmpegError` of the probing engine — and the two messages (audio case
vs. video case) differ. -/
theorem streamNotFound_distinct (streams1 streams2 : List FFStream)
    (h1 : streams1.find? (fun s => s.codec_type == "audio") = none)
    (h2 : streams2.find? (fun s => s.codec_type == "video") = none) :
    getAudioDuration streams1 =
      .error (.valueError "Aucun flux audio trouvé dans le fichier audio.")
    ∧ getVideoDuration streams2 =
      .error (.valueError "Aucun flux vidéo trouvé dans la vidéo de base.")
    ∧ "Aucun flux audio trouvé dans le fichier audio." ≠
        "Aucun flux vidéo trouvé dans la vidéo de base."
    ∧ ∀ m, PyErr.valueError "Aucun flux audio trouvé dans le fichier audio." ≠ .ffmpegError m
        ∧ PyErr.valueError "Aucun flux vidéo trouvé dans la vidéo de base." ≠ .ffmpegError m := by
  refine ⟨?_, ?_, by decide, fun m => ⟨by simp, by simp⟩⟩
  · unfold getAudioDuration
    rw [h1]
  · unfold getVideoDuration
    rw [h2]

/-- Witness for C7 at concrete stream lists. -/
theorem streamNotFound_distinct_witness :
    getAudioDuration [⟨"video", 5⟩] =
      .error (.valueError "Aucun flux audio trouvé dans le fichier audio.")
    ∧ getVideoDuration [⟨"audio", 3⟩] =
      .error (.valueError "Aucun flux vidéo trouvé dans la vidéo de base.") :=
  ⟨(streamNotFound_distinct [⟨"video", 5⟩] [⟨"audio", 3⟩] (by rfl) (by rfl)).1,
   (streamNotFound_distinct [⟨"video", 5⟩] [⟨"audio", 3⟩] (by rfl) (by rfl)).2.1⟩

/-- C8: on the two concrete segments `("hello world foo", 0, 3)` and
`("bar baz", 3, 4)` with `maxWordsPerGroup = 2`, the splitter yields
exactly the cues `(0, 2, "hello world")`, `(2, 3, "foo")`,
`(3, 4, "bar baz")`, carrying indices 1, 2, 3. -/
theorem generateSubtitles_example :
    generateSubtitles 2 [⟨"hello world foo", 0, 3⟩, ⟨"bar baz", 3, 4⟩] =
      [(0, 2, "hello world"), (2, 3, "foo"), (3, 4, "bar baz")]
    ∧ srtIndices (generateSubtitles 2 [⟨"hello world foo", 0, 3⟩, ⟨"bar baz", 3, 4⟩]) =
      [1, 2, 3] := by
  have h1 : pySplit "hello world foo" = ["hello", "world", "foo"] := by decide
  have h2 : pySplit "bar baz" = ["bar", "baz"] := by decide
  have hmain : generateSubtitles 2 [⟨"hello world foo", 0, 3⟩, ⟨"bar baz", 3, 4⟩] =
      [(0, 2, "hello world"), (2, 3, "foo"), (3, 4, "bar baz")] := by
    simp only [generateSubtitles, splitSegment, List.flatMap_cons, List.flatMap_nil, h1, h2]
    norm_num [pyRange, pyRangeAux]
    exact ⟨by decide, by decide, by decide⟩
  refine ⟨hmain, ?_⟩
  rw [hmain]
  decide

/-- C9: the random video selection only ever returns a file whose name
ends in `.mp4`, `.avi` or `.mov`, and a folder with no such file — empty
or not — produces the very same no-video-found error as the empty
folder. -/
theorem getRandomVideo_extension_filter (folder : List String) (r : ℕ) :
    (∀ f, getRandomVideo folder r = .ok f →
      (pyEndsWith f ".mp4" || pyEndsWith f ".avi" || pyEndsWith f ".mov") = true)
    ∧ (folder.filter isVideoFile = [] →
        getRandomVideo folder r =
          .error (.fileNotFoundError "No video files found in the videoDatabase folder.")
        ∧ getRandomVideo folder r = getRandomVideo [] r) := by
  constructor
  · intro f hf
    by_cases h : folder.filter isVideoFile = []
    · simp [getRandomVideo, h] at hf
    · simp only [getRandomVideo, dif_neg h] at hf
      rw [Except.ok.injEq] at hf
      have hmem : f ∈ folder.filter isVideoFile := by
        rw [← hf]
        exact List.get_mem _ _ _
      simpa [isVideoFile] using List.of_mem_filter hmem
  · intro h
    exact ⟨by simp [getRandomVideo, h], by simp [getRandomVideo, h]⟩

/-- Witness for C9 at a concrete folder listing. -/
theorem getRandomVideo_extension_filter_witness :
    getRandomVideo ["a.txt", "clip.mp4"] 3 = .ok "clip.mp4"
    ∧ (pyEndsWith "clip.mp4" ".mp4" || pyEndsWith "clip.mp4" ".avi"
        || pyEndsWith "clip.mp4" ".mov") = true
    ∧ getRandomVideo ["a.txt"] 0 =
        .error (.fileNotFoundError "No video files found in the videoDatabase folder.") :=
  ⟨by rfl,
   (getRandomVideo_extension_filter ["a.txt", "clip.mp4"] 3).1 "clip.mp4" (by rfl),
   ((getRandomVideo_extension_filter ["a.txt"] 0).2 (by rfl)).1⟩

/-- C1 counterexample: a run whose clip stage fails ends with an error
while the narration audio and the subtitle file still exist — the
orchestrator does not attempt any deletion before surfacing the error,
so it is false that all temporary artifacts are destroyed at every run
end. -/
theorem generateVideo_failure_leaves_tempFiles :
    (generateVideo ⟨true, true, ["a.mp4"], 0, false, true⟩).err =
      some (.externalFailure "clip")
    ∧ (generateVideo ⟨true, true, ["a.mp4"], 0, false, true⟩).tempFiles =
      [TEMP_AUDIO_FILE, TEMP_SRT_FILE]
    ∧ (generateVideo ⟨true, true, ["a.mp4"], 0, false, true⟩).tempFiles ≠ [] := by
  refine ⟨by rfl, by rfl, by decide⟩

/-- C1 as amended: temporary artifacts are deleted only by the cleanup
step of a fully successful run — on success all of them are removed and
none remain, while on any stage failure the error escapes at once and no
deletion whatsoever is attempted. -/
theorem generateVideo_cleanup_only_on_success (env : Env) :
    ((generateVideo env).err = none →
      (generateVideo env).tempFiles = []
      ∧ Ev.remove TEMP_AUDIO_FILE ∈ (generateVideo env).events
      ∧ Ev.remove TEMP_SRT_FILE ∈ (generateVideo env).events
      ∧ Ev.remove TEMP_VIDEO_FILE ∈ (generateVideo env).events)
    ∧ ((generateVideo env).err ≠ none →
        ∀ f, Ev.remove f ∉ (generateVideo env).events) := by
  obtain ⟨s, t, folder, r, c, m⟩ := env
  cases hg : getRandomVideo folder r <;>
    cases s <;> cases t <;> cases c <;> cases m <;>
      simp [generateVideo, hg]

/-- Witness for the amended C1 at a concrete successful run. -/
theorem generateVideo_cleanup_only_on_success_witness :
    (generateVideo ⟨true, true, ["a.mp4"], 0, true, true⟩).tempFiles = []
    ∧ Ev.remove TEMP_AUDIO_FILE ∈ (generateVideo ⟨true, true, ["a.mp4"], 0, true, true⟩).events
    ∧ Ev.remove TEMP_SRT_FILE ∈ (generateVideo ⟨true, true, ["a.mp4"], 0, true, true⟩).events
    ∧ Ev.remove TEMP_VIDEO_FILE ∈ (generateVideo ⟨true, true, ["a.mp4"], 0, true, true⟩).events :=
  (generateVideo_cleanup_only_on_success ⟨true, true, ["a.mp4"], 0, true, true⟩).1 (by rfl)

/-- C2 counterexample: on a run with an empty source-video folder the
speech-synthesis call has already happened when the no-video-found error
is raised, so it is false that no external synthesis operation ever
occurs on such runs. -/
theorem generateVideo_emptyFolder_synthesis_occurs :
    (generateVideo ⟨true, true, [], 0, true, true⟩).err =
      some (.fileNotFoundError "No video files found in the videoDatabase folder.")
    ∧ Ev.synthesize ∈ (generateVideo ⟨true, true, [], 0, true, true⟩).events
    ∧ Ev.transcribe ∈ (generateVideo ⟨true, true, [], 0, true, true⟩).events := by
  refine ⟨by rfl, by decide, by decide⟩

/-- C2 as amended: when the source-video folder holds no video file the
run fails with the no-video-found error before any encoding or muxing
operation is attempted — no encode call ever occurs — but only after
speech synthesis and transcription have already run. -/
theorem generateVideo_emptyFolder_no_encode (env : Env)
    (h : env.folder.filter isVideoFile = []) :
    Ev.encode ∉ (generateVideo env).events
    ∧ Ev.mux ∉ (generateVideo env).events
    ∧ (env.synthOk = true → env.transcribeOk = true →
        (generateVideo env).err =
          some (.fileNotFoundError "No video files found in the videoDatabase folder.")
        ∧ Ev.synthesize ∈ (generateVideo env).events
        ∧ Ev.transcribe ∈ (generateVideo env).events) := by
  obtain ⟨s, t, folder, r, c, m⟩ := env
  simp only at h
  have hg : getRandomVideo folder r =
      .error (.fileNotFoundError "No video files found in the videoDatabase folder.") := by
    simp [getRandomVideo, h]
  cases s <;> cases t <;> simp [generateVideo, hg]

/-- Witness for the amended C2 at a concrete folder with no video
file. -/
theorem generateVideo_emptyFolder_no_encode_witness :
    Ev.encode ∉ (generateVideo ⟨true, true, ["a.txt"], 0, true, true⟩).events
    ∧ Ev.mux ∉ (generateVideo ⟨true, true, ["a.txt"], 0, true, true⟩).events
    ∧ (true = true → true = true →
        (generateVideo ⟨true, true, ["a.txt"], 0, true, true⟩).err =
          some (.fileNotFoundError "No video files found in the videoDatabase folder.")
        ∧ Ev.synthesize ∈ (generateVideo ⟨true, true, ["a.txt"], 0, true, true⟩).events
        ∧ Ev.transcribe ∈ (generateVideo ⟨true, true, ["a.txt"], 0, true, true⟩).events) :=
  generateVideo_emptyFolder_no_encode ⟨true, true, ["a.txt"], 0, true, true⟩ (by rfl)

/-! ### C4: per-segment cue count and clamp -/

/-- Length of the index list produced by `pyRangeAux` when the fuel is
sufficient: the ceiling of `(n - i) / k` for a positive step `k`. -/
theorem pyRangeAux_length (k : ℕ) (hk : 0 < k) :
    ∀ (fuel i n : ℕ), n - i ≤ fuel →
      (pyRangeAux fuel i n k).length = (n - i + k - 1) / k := by
  intro fuel
  induction fuel with
  | zero =>
    intro i n h
    have h0 : n - i = 0 := Nat.le_zero.mp h
    simp only [pyRangeAux, List.length_nil, h0]
    exact (Nat.div_eq_of_lt (by omega)).symm
  | succ fuel ih =>
    intro i n h
    by_cases hin : i < n
    · have hrec := ih (i + k) n (by omega)
      simp only [pyRangeAux]
      rw [if_pos (by simp [hin, hk]), List.length_cons, hrec]
      by_cases hd : n - i ≤ k
      · rw [(by omega : n - (i + k) = 0)]
        rw [Nat.div_eq_of_lt (by omega : 0 + k - 1 < k)]
        rw [Nat.div_eq_of_lt_le (by omega : 1 * k ≤ n - i + k - 1)
          (by omega : n - i + k - 1 < (1 + 1) * k)]
      · rw [(by omega : n - (i + k) + k - 1 = n - i - 1),
          (by omega : n - i + k - 1 = n - i - 1 + k), Nat.add_div_right _ hk]
    · simp only [pyRangeAux]
      rw [if_neg (by simp [hin]), List.length_nil, (by omega : n - i = 0)]
      exact (Nat.div_eq_of_lt (by omega)).symm

/-- The natural-number expression `(n + k - 1) / k` is the ceiling of
the rational `n / k`. -/
theorem ceil_nat_div (n k : ℕ) (hk : 0 < k) :
    (((n + k - 1) / k : ℕ) : ℤ) = ⌈(n : ℚ) / (k : ℚ)⌉ := by
  have h1 : (n + k - 1) / k * k ≤ n + k - 1 := Nat.div_mul_le_self _ _
  have h2 : n + k - 1 < ((n + k - 1) / k + 1) * k := by
    rw [← Nat.div_lt_iff_lt_mul hk]
    omega
  have hkQ : (0 : ℚ) < (k : ℚ) := by exact_mod_cast hk
  generalize hm : (n + k - 1) / k = m at h1 h2 ⊢
  symm
  rw [Int.ceil_eq_iff]
  constructor
  · push_cast
    rw [lt_div_iff₀ hkQ]
    rcases Nat.eq_zero_or_pos m with hm0 | hmpos
    · rw [hm0]
      push_cast
      have hn0 : (0 : ℚ) ≤ (n : ℚ) := Nat.cast_nonneg n
      nlinarith
    · obtain ⟨m', rfl⟩ : ∃ m', m = m' + 1 := ⟨m - 1, by omega⟩
      have hlb : m' * k < n := by
        rw [add_mul, one_mul] at h1
        generalize m' * k = M at h1 ⊢
        omega
      push_cast
      have harith : ((m' : ℚ) + 1 - 1) * k = (m' : ℚ) * k := by ring
      rw [harith]
      exact_mod_cast hlb
  · push_cast
    rw [div_le_iff₀ hkQ]
    have hub : n ≤ m * k := by
      rw [add_mul, one_mul] at h2
      generalize m * k = M at h1 h2 ⊢
      omega
    exact_mod_cast hub

/-- C4: for every transcript segment and every positive
`maxWordsPerGroup` `k`, the splitter emits exactly `⌈n / k⌉` cues for
the segment (`n` the number of whitespace-separated words of its text;
in particular zero words emit no cues), and every emitted cue's end time
is clamped to at most the segment's end time. -/
theorem splitSegment_spec (k : ℕ) (seg : Segment) (hk : 0 < k) :
    (splitSegment k seg).length = ((pySplit seg.text).length + k - 1) / k
    ∧ ((((pySplit seg.text).length + k - 1) / k : ℕ) : ℤ) =
        ⌈((pySplit seg.text).length : ℚ) / (k : ℚ)⌉
    ∧ (∀ c ∈ splitSegment k seg, c.2.1 ≤ seg.endTime)
    ∧ (pySplit seg.text = [] → splitSegment k seg = []) := by
  refine ⟨?_, ceil_nat_div _ _ hk, ?_, ?_⟩
  · simp only [splitSegment, List.length_map, pyRange]
    rw [pyRangeAux_length k hk _ 0 _ (by omega), Nat.sub_zero]
  · intro c hc
    simp only [splitSegment, List.mem_map] at hc
    obtain ⟨i, hi, rfl⟩ := hc
    exact min_le_right _ _
  · intro h
    simp [splitSegment, h, pyRange, pyRangeAux]

/-- Witness for C4 at a concrete segment and chunk size. -/
theorem splitSegment_spec_witness :
    0 < 2 ∧ (splitSegment 2 ⟨"hello world bar", 0, 3⟩).length =
      ((pySplit "hello world bar").length + 2 - 1) / 2 :=
  ⟨by decide, (splitSegment_spec 2 ⟨"hello world bar", 0, 3⟩ (by decide)).1⟩

/-! ### C6: timestamp format -/

/-- `pyMod a m` is `m` times the fractional part of `a / m`. -/
theorem pyMod_eq_mul_fract (a m : ℚ) (hm : m ≠ 0) :
    pyMod a m = m * Int.fract (a / m) := by
  unfold pyMod Int.fract
  rw [mul_sub, mul_div_cancel₀ a hm]

/-- Python `%` with a positive modulus is non-negative. -/
theorem pyMod_nonneg (a m : ℚ) (hm : 0 < m) : 0 ≤ pyMod a m := by
  rw [pyMod_eq_mul_fract a m hm.ne.symm]
  exact mul_nonneg hm.le (Int.fract_nonneg _)

/-- Python `%` with a positive modulus is below the modulus. -/
theorem pyMod_lt (a m : ℚ) (hm : 0 < m) : pyMod a m < m := by
  rw [pyMod_eq_mul_fract a m hm.ne.symm]
  calc m * Int.fract (a / m) < m * 1 := mul_lt_mul_of_pos_left (Int.fract_lt_one _) hm
    _ = m := mul_one m

/-- `a % 1` is the fractional part of `a`. -/
theorem pyMod_one (a : ℚ) : pyMod a 1 = Int.fract a := by
  unfold pyMod Int.fract
  rw [div_one, one_mul]

/-- Python `int()` is the floor on non-negative values. -/
theorem pyInt_of_nonneg (q : ℚ) (h : 0 ≤ q) : pyInt q = ⌊q⌋ := if_pos h

/-- A string of exactly two digit characters. -/
theorem two_chars (s : String) (h : isDigitsOfLen 2 s = true) :
    ∃ a b, s.data = [a, b] ∧ a.isDigit = true ∧ b.isDigit = true := by
  rcases s with ⟨l⟩
  simp only [isDigitsOfLen, String.length, Bool.and_eq_true, beq_iff_eq,
    List.all_eq_true] at h
  obtain ⟨hl, hd⟩ := h
  match l, hl with
  | [a, b], _ => exact ⟨a, b, rfl, hd a (by simp), hd b (by simp)⟩

/-- A string of exactly three digit characters. -/
theorem three_chars (s : String) (h : isDigitsOfLen 3 s = true) :
    ∃ a b c, s.data = [a, b, c] ∧ a.isDigit = true ∧ b.isDigit = true ∧ c.isDigit = true := by
  rcases s with ⟨l⟩
  simp only [isDigitsOfLen, String.length, Bool.and_eq_true, beq_iff_eq,
    List.all_eq_true] at h
  obtain ⟨hl, hd⟩ := h
  match l, hl with
  | [a, b, c], _ => exact ⟨a, b, c, rfl, hd a (by simp), hd b (by simp), hd c (by simp)⟩

/-- Assembling two-digit hour, minute and second fields and a
three-digit millisecond field with the fixed separators yields the SRT
timestamp pattern. -/
theorem isSRT_of_parts (s1 s2 s3 s4 : String)
    (h1 : isDigitsOfLen 2 s1 = true) (h2 : isDigitsOfLen 2 s2 = true)
    (h3 : isDigitsOfLen 2 s3 = true) (h4 : isDigitsOfLen 3 s4 = true) :
    isSRTTimestamp (s1 ++ ":" ++ s2 ++ ":" ++ s3 ++ "," ++ s4) = true := by
  obtain ⟨a1, b1, e1, d1a, d1b⟩ := two_chars s1 h1
  obtain ⟨a2, b2, e2, d2a, d2b⟩ := two_chars s2 h2
  obtain ⟨a3, b3, e3, d3a, d3b⟩ := two_chars s3 h3
  obtain ⟨a4, b4, c4, e4, d4a, d4b, d4c⟩ := three_chars s4 h4
  simp only [isSRTTimestamp, String.data_append, e1, e2, e3, e4]
  simp [d1a, d1b, d2a, d2b, d3a, d3b, d4a, d4b, d4c]

/-- Zero-padding a small non-negative number to two places yields two
digits (checked exhaustively). -/
theorem pad2_digits : ∀ n : ℕ, n < 100 → isDigitsOfLen 2 (pad 2 (n : ℤ)) = true := by decide

/-- `pad2_digits` transported to non-negative integers. -/
theorem pad2_digits_int (n : ℤ) (h0 : 0 ≤ n) (h : n < 100) :
    isDigitsOfLen 2 (pad 2 n) = true := by
  have hn := pad2_digits n.toNat (by omega)
  rwa [Int.toNat_of_nonneg h0] at hn

set_option maxRecDepth 10000 in
/-- Zero-padding a small non-negative number to three places yields
three digits (checked exhaustively). -/
theorem pad3_digits : ∀ n : ℕ, n < 1000 → isDigitsOfLen 3 (pad 3 (n : ℤ)) = true := by decide

/-- `pad3_digits` transported to non-negative integers. -/
theorem pad3_digits_int (n : ℤ) (h0 : 0 ≤ n) (h : n < 1000) :
    isDigitsOfLen 3 (pad 3 n) = true := by
  have hn := pad3_digits n.toNat (by omega)
  rwa [Int.toNat_of_nonneg h0] at hn

/-- C6: for every `seconds ≥ 0` whose hour part fits two digits, the
time encoder's output matches `\d\d:\d\d:\d\d,\d\d\d` with zero-padded
fields, and its millisecond component is exactly
`⌊fractional_part * 1000⌋`, which is never above 999. -/
theorem formatTime_spec (seconds : ℚ) (h0 : 0 ≤ seconds) (hub : seconds < 360000) :
    isSRTTimestamp (formatTime seconds) = true
    ∧ formatTime seconds =
        pad 2 ⌊seconds / 3600⌋ ++ ":" ++ pad 2 ⌊pyMod seconds 3600 / 60⌋ ++ ":" ++
          pad 2 ⌊pyMod seconds 60⌋ ++ "," ++ pad 3 ⌊Int.fract seconds * 1000⌋
    ∧ pyInt (pyMod seconds 1 * 1000) = ⌊Int.fract seconds * 1000⌋
    ∧ 0 ≤ ⌊Int.fract seconds * 1000⌋
    ∧ ⌊Int.fract seconds * 1000⌋ < 1000 := by
  have hfr0 : 0 ≤ Int.fract seconds := Int.fract_nonneg _
  have hfr1 : Int.fract seconds < 1 := Int.fract_lt_one _
  have hms_eq : pyInt (pyMod seconds 1 * 1000) = ⌊Int.fract seconds * 1000⌋ := by
    rw [pyMod_one, pyInt_of_nonneg _ (mul_nonneg hfr0 (by norm_num))]
  have hms0 : (0 : ℤ) ≤ ⌊Int.fract seconds * 1000⌋ :=
    Int.floor_nonneg.mpr (mul_nonneg hfr0 (by norm_num))
  have hms1 : ⌊Int.fract seconds * 1000⌋ < 1000 := by
    apply Int.floor_lt.mpr
    push_cast
    nlinarith
  have hh0 : (0 : ℤ) ≤ ⌊seconds / 3600⌋ := Int.floor_nonneg.mpr (by positivity)
  have hh1 : ⌊seconds / 3600⌋ < 100 := by
    apply Int.floor_lt.mpr
    push_cast
    rw [div_lt_iff₀ (by norm_num : (0:ℚ) < 3600)]
    linarith
  have hh_eq : pyInt ((⌊seconds / 3600⌋ : ℤ) : ℚ) = ⌊seconds / 3600⌋ := by
    rw [pyInt_of_nonneg _ (by exact_mod_cast hh0), Int.floor_intCast]
  have hmod3600_0 : 0 ≤ pyMod seconds 3600 := pyMod_nonneg _ _ (by norm_num)
  have hmod3600_1 : pyMod seconds 3600 < 3600 := pyMod_lt _ _ (by norm_num)
  have hmin0 : (0 : ℤ) ≤ ⌊pyMod seconds 3600 / 60⌋ := Int.floor_nonneg.mpr (by positivity)
  have hmin1 : ⌊pyMod seconds 3600 / 60⌋ < 60 := by
    apply Int.floor_lt.mpr
    push_cast
    rw [div_lt_iff₀ (by norm_num : (0:ℚ) < 60)]
    linarith
  have hmin_eq : pyInt ((⌊pyMod seconds 3600 / 60⌋ : ℤ) : ℚ) = ⌊pyMod seconds 3600 / 60⌋ := by
    rw [pyInt_of_nonneg _ (by exact_mod_cast hmin0), Int.floor_intCast]
  have hmod60_0 : 0 ≤ pyMod seconds 60 := pyMod_nonneg _ _ (by norm_num)
  have hmod60_1 : pyMod seconds 60 < 60 := pyMod_lt _ _ (by norm_num)
  have hsec0 : (0 : ℤ) ≤ ⌊pyMod seconds 60⌋ := Int.floor_nonneg.mpr hmod60_0
  have hsec1 : ⌊pyMod seconds 60⌋ < 60 := by
    apply Int.floor_lt.mpr
    push_cast
    linarith
  have hsec_eq : pyInt (pyMod seconds 60) = ⌊pyMod seconds 60⌋ :=
    pyInt_of_nonneg _ hmod60_0
  have heq : formatTime seconds =
      pad 2 ⌊seconds / 3600⌋ ++ ":" ++ pad 2 ⌊pyMod seconds 3600 / 60⌋ ++ ":" ++
        pad 2 ⌊pyMod seconds 60⌋ ++ "," ++ pad 3 ⌊Int.fract seconds * 1000⌋ := by
    simp only [formatTime]
    rw [hms_eq, hh_eq, hmin_eq, hsec_eq]
  refine ⟨?_, heq, hms_eq, hms0, hms1⟩
  rw [heq]
  exact isSRT_of_parts _ _ _ _ (pad2_digits_int _ hh0 hh1)
    (pad2_digits_int _ hmin0 (by omega)) (pad2_digits_int _ hsec0 (by omega))
    (pad3_digits_int _ hms0 hms1)

/-- Witness for C6 at a concrete time value. -/
theorem formatTime_spec_witness :
    (0 : ℚ) ≤ 5/2 ∧ (5/2 : ℚ) < 360000 ∧ isSRTTimestamp (formatTime (5/2)) = true :=
  ⟨by norm_num, by norm_num, (formatTime_spec (5/2) (by norm_num) (by norm_num)).1⟩

/-! ### C10: placeholder replacement -/

/-- `pyReplaceAux` on the empty string is the empty string, whatever the
fuel. -/
theorem pyReplaceAux_nil (pat rep : List Char) (fuel : ℕ) :
    pyReplaceAux pat rep fuel [] = [] := by
  cases fuel <;> rfl

/-- Step of `pyReplaceAux` when the pattern matches at the head. -/
theorem pyReplaceAux_cons_pos (pat rep : List Char) (fuel : ℕ) (s : List Char)
    (hs : s ≠ []) (h : pat.isPrefixOf s = true) :
    pyReplaceAux pat rep (fuel + 1) s =
      rep ++ pyReplaceAux pat rep fuel (s.drop pat.length) := by
  cases s with
  | nil => exact absurd rfl hs
  | cons c cs =>
    simp only [pyReplaceAux]
    rw [if_pos h]

/-- Step of `pyReplaceAux` when the pattern does not match at the
head. -/
theorem pyReplaceAux_cons_neg (pat rep : List Char) (fuel : ℕ) (c : Char) (cs : List Char)
    (h : pat.isPrefixOf (c :: cs) = false) :
    pyReplaceAux pat rep (fuel + 1) (c :: cs) = c :: pyReplaceAux pat rep fuel cs := by
  simp only [pyReplaceAux]
  rw [if_neg (by simp [h])]

/-- An input without any occurrence of the pattern is returned
unchanged. -/
theorem pyReplaceAux_no_occ (pat rep : List Char) :
    ∀ (fuel : ℕ) (s : List Char), containsSub pat s = false →
      pyReplaceAux pat rep fuel s = s := by
  intro fuel
  induction fuel with
  | zero => intro s h; rfl
  | succ fuel ih =>
    intro s h
    cases s with
    | nil => rfl
    | cons c cs =>
      rw [containsSub, Bool.or_eq_false_iff] at h
      obtain ⟨h1, h2⟩ := h
      rw [pyReplaceAux_cons_neg pat rep fuel c cs h1, ih cs h2]

/-- Two sufficient fuels give the same replacement result. -/
theorem pyReplaceAux_fuel (pat rep : List Char) (hp : pat ≠ []) :
    ∀ (f g : ℕ) (s : List Char), s.length ≤ f → s.length ≤ g →
      pyReplaceAux pat rep f s = pyReplaceAux pat rep g s := by
  have hp1 : 1 ≤ pat.length := List.length_pos.mpr hp
  intro f
  induction f with
  | zero =>
    intro g s hf hg
    have h0 : s = [] := List.length_eq_zero.mp (Nat.le_zero.mp hf)
    rw [h0, pyReplaceAux_nil, pyReplaceAux_nil]
  | succ f ih =>
    intro g s hf hg
    cases s with
    | nil => rw [pyReplaceAux_nil, pyReplaceAux_nil]
    | cons c cs =>
      obtain ⟨g', rfl⟩ : ∃ g', g = g' + 1 := by
        cases g with
        | zero => simp at hg
        | succ g' => exact ⟨g', rfl⟩
      by_cases hpre : pat.isPrefixOf (c :: cs) = true
      · rw [pyReplaceAux_cons_pos pat rep f _ (by simp) hpre,
          pyReplaceAux_cons_pos pat rep g' _ (by simp) hpre]
        have hd : ((c :: cs).drop pat.length).length ≤ f := by
          rw [List.length_drop]
          simp only [List.length_cons] at hf ⊢
          omega
        have hd' : ((c :: cs).drop pat.length).length ≤ g' := by
          rw [List.length_drop]
          simp only [List.length_cons] at hg ⊢
          omega
        rw [ih g' _ hd hd']
      · rw [Bool.not_eq_true] at hpre
        rw [pyReplaceAux_cons_neg pat rep f c cs hpre,
          pyReplaceAux_cons_neg pat rep g' c cs hpre]
        have hcs : cs.length ≤ f := by simp only [List.length_cons] at hf; omega
        have hcs' : cs.length ≤ g' := by simp only [List.length_cons] at hg; omega
        rw [ih g' cs hcs hcs']

/-- At the leftmost occurrence of the pattern, the prefix before it is
passed through unchanged, the occurrence is replaced, and replacement
continues on the remainder. -/
theorem pyReplaceAux_split (pat rep : List Char) (hp : pat ≠ []) :
    ∀ (a b : List Char) (fuel : ℕ),
      a.length + pat.length + b.length ≤ fuel →
      (∀ i < a.length, pat.isPrefixOf ((a ++ pat ++ b).drop i) = false) →
      pyReplaceAux pat rep fuel (a ++ pat ++ b) =
        a ++ rep ++ pyReplaceAux pat rep b.length b := by
  have hp1 : 1 ≤ pat.length := List.length_pos.mpr hp
  intro a
  induction a with
  | nil =>
    intro b fuel hfuel _hocc
    simp only [List.length_nil, Nat.zero_add] at hfuel
    obtain ⟨f, rfl⟩ : ∃ f, fuel = f + 1 := ⟨fuel - 1, by omega⟩
    simp only [List.nil_append]
    rw [pyReplaceAux_cons_pos pat rep f (pat ++ b)
      (by
        intro hcontra
        rw [List.append_eq_nil] at hcontra
        exact hp hcontra.1)
      (List.isPrefixOf_iff_prefix.mpr (List.prefix_append pat b))]
    rw [List.drop_left]
    rw [pyReplaceAux_fuel pat rep hp f b.length b (by omega) (le_refl _)]
  | cons x a' ih =>
    intro b fuel hfuel hocc
    obtain ⟨f, rfl⟩ : ∃ f, fuel = f + 1 := ⟨fuel - 1, by omega⟩
    have h0 := hocc 0 (by simp)
    rw [List.drop_zero, List.cons_append, List.cons_append] at h0
    simp only [List.cons_append]
    rw [pyReplaceAux_cons_neg pat rep f _ _ h0]
    rw [ih b f (by simp only [List.length_cons] at hfuel; omega) (by
      intro i hi
      have hx := hocc (i + 1) (by simp only [List.length_cons]; omega)
      rw [List.cons_append, List.cons_append] at hx
      simpa using hx)]

/-- C10: prompt assembly replaces the occurrences of the literal
placeholder in the loaded template with the user's input stripped of
leading and trailing whitespace, and passes the template's text outside
the placeholder through unchanged: a template without the placeholder is
returned as is, and at a leftmost occurrence the text before it is kept,
the stripped input is substituted, and replacement continues on the text
after it. -/
theorem generateGeminiPrompt_spec (PROMPT userPrompt : String) :
    (containsSub placeholder PROMPT.data = false →
      generateGeminiPrompt PROMPT userPrompt = PROMPT)
    ∧ ∀ (a b : List Char), PROMPT.data = a ++ placeholder ++ b →
        (∀ i < a.length, placeholder.isPrefixOf (PROMPT.data.drop i) = false) →
        (generateGeminiPrompt PROMPT userPrompt).data =
          a ++ (pyStrip userPrompt).data ++
            pyReplaceAux placeholder (pyStrip userPrompt).data b.length b := by
  have hp : placeholder ≠ [] := by decide
  constructor
  · intro h
    unfold generateGeminiPrompt pyReplace
    rw [show (String.mk placeholder).data = placeholder from rfl]
    rw [pyReplaceAux_no_occ placeholder _ _ _ h]
  · intro a b hsplit hocc
    unfold generateGeminiPrompt pyReplace
    rw [show (String.mk placeholder).data = placeholder from rfl]
    show pyReplaceAux placeholder (pyStrip userPrompt).data PROMPT.data.length PROMPT.data =
      a ++ (pyStrip userPrompt).data ++
        pyReplaceAux placeholder (pyStrip userPrompt).data b.length b
    rw [hsplit] at hocc ⊢
    exact pyReplaceAux_split placeholder _ hp a b _
      (by simp only [List.length_append]; omega) hocc

/-- Witness for C10 at a concrete template and user input. -/
theorem generateGeminiPrompt_spec_witness :
    ("Say: \x7b\x7bprompt\x7d\x7dEND" : String).data =
      ("Say: " : String).data ++ placeholder ++ ("END" : String).data
    ∧ (generateGeminiPrompt "Say: \x7b\x7bprompt\x7d\x7dEND" "  hi ").data =
        ("Say: " : String).data ++ (pyStrip "  hi ").data ++
          pyReplaceAux placeholder (pyStrip "  hi ").data
            ("END" : String).data.length ("END" : String).data :=
  ⟨by decide,
   (generateGeminiPrompt_spec "Say: \x7b\x7bprompt\x7d\x7dEND" "  hi ").2
     ("Say: " : String).data ("END" : String).data (by decide) (by decide)⟩

end Brainrotter
